import Mathlib

/-!
Verification of the normalization-and-classification pipeline in
`scripts/fetch.py` (Global PV/BESS Intelligence Hub).

The Python source is shallowly embedded below.  Texts are `List Char`
(`Text`); each Python regex used by the pipeline is embedded as an
executable Boolean search function that mirrors the regex's semantics
(case-insensitive literal alternation with word-boundary anchors, plus the
two hand-rolled capacity patterns).  All texts occurring in the program's
rule tables and in the feeds are ASCII, so character classes (`\w`, `\s`,
case folding) are modelled on their ASCII fragment.
-/

namespace Fetch

/-- Texts are lists of characters. -/
abbrev Text := List Char

/-- The character list of a string literal. -/
def str (s : String) : Text := s.data

/-- ASCII lower-casing on character codes (used for `re.I` matching). -/
def lowerN (n : Nat) : Nat := if 65 ≤ n ∧ n ≤ 90 then n + 32 else n

/-- Case-insensitive character equality (ASCII). -/
def ciEq (a b : Char) : Bool := lowerN a.toNat == lowerN b.toNat

/-- Python `\w` on the ASCII fragment: letters, digits, underscore. -/
def isWordChar (c : Char) : Bool :=
  let n := c.toNat
  decide ((48 ≤ n ∧ n ≤ 57) ∨ (65 ≤ n ∧ n ≤ 90) ∨ (97 ≤ n ∧ n ≤ 122) ∨ n = 95)

/-- Python `\s` on the ASCII fragment: space, tab, LF, VT, FF, CR.
Also the whitespace stripped by `str.strip()` for ASCII text. -/
def isSpaceChar (c : Char) : Bool :=
  decide (c = ' ' ∨ c = '\t' ∨ c = '\n' ∨ c = '\r' ∨ c.toNat = 11 ∨ c.toNat = 12)

/-- Word-ness of an optional character; out-of-string counts as non-word. -/
def wordOpt : Option Char → Bool
  | none => false
  | some c => isWordChar c

/-- Python `\b`: a word boundary lies between two (optional) characters
exactly when their word-ness differs. -/
def atBoundary (prev next : Option Char) : Bool := wordOpt prev != wordOpt next

/-- A literal alternative of a regex alternation: the literal text, and
whether a `\b` anchor is attached before (`lb`) and/or after (`rb`) it. -/
structure Lit where
  pat : Text
  lb : Bool
  rb : Bool

/-- Case-insensitively consume `pat` from the front of the text, returning
the rest on success. -/
def ciDropLit : Text → Text → Option Text
  | [], t => some t
  | _ :: _, [] => none
  | p :: ps, c :: cs => if ciEq p c then ciDropLit ps cs else none

/-- Does the literal alternative `l` match at the current position?
`prev` is the character just before the position (for `\b`). -/
def litHere (l : Lit) (prev : Option Char) (t : Text) : Bool :=
  match ciDropLit l.pat t with
  | none => false
  | some rest =>
    (!l.lb || atBoundary prev t.head?) &&
    (!l.rb || atBoundary l.pat.getLast? rest.head?)

/-- `re.search`: try a position matcher at every position of the text.
`m prev t` decides a match at the position between `prev` and `t`. -/
def reSearchAux (m : Option Char → Text → Bool) : Option Char → Text → Bool
  | prev, [] => m prev []
  | prev, c :: cs => m prev (c :: cs) || reSearchAux m (some c) cs

/-- `re.search` from the start of the text. -/
def reSearch (m : Option Char → Text → Bool) (t : Text) : Bool :=
  reSearchAux m none t

/-- `re.search` of an alternation of literal alternatives. -/
def searchLits (ls : List Lit) (t : Text) : Bool :=
  reSearch (fun prev s => ls.any (fun l => litHere l prev s)) t

/-! ### The regexes of `scripts/fetch.py`

In Python, alternation binds loosest, so in a pattern such as
`\bGermany|German|...|TransnetBW\b` the leading `\b` anchors only the first
alternative and the trailing `\b` only the last. -/

/-- `re.search(r"\bGermany|German|Bundesnetzagentur|BNetzA|Fraunhofer|TenneT|50Hertz|Amprion|TransnetBW\b", ., re.I)` -/
def rxGermanyRule (t : Text) : Bool :=
  searchLits
    [⟨str "Germany", true, false⟩, ⟨str "German", false, false⟩,
     ⟨str "Bundesnetzagentur", false, false⟩, ⟨str "BNetzA", false, false⟩,
     ⟨str "Fraunhofer", false, false⟩, ⟨str "TenneT", false, false⟩,
     ⟨str "50Hertz", false, false⟩, ⟨str "Amprion", false, false⟩,
     ⟨str "TransnetBW", false, true⟩] t

/-- `re.search(r"\bIndia|MNRE|SECI|CEA|CERC|Gujarat|Maharashtra|Rajasthan|Grid-India|POSOCO\b", ., re.I)` -/
def rxIndiaRule (t : Text) : Bool :=
  searchLits
    [⟨str "India", true, false⟩, ⟨str "MNRE", false, false⟩,
     ⟨str "SECI", false, false⟩, ⟨str "CEA", false, false⟩,
     ⟨str "CERC", false, false⟩, ⟨str "Gujarat", false, false⟩,
     ⟨str "Maharashtra", false, false⟩, ⟨str "Rajasthan", false, false⟩,
     ⟨str "Grid-India", false, false⟩, ⟨str "POSOCO", false, true⟩] t

/-- `re.search(r"\bEurope|European Commission|EU\b", ., re.I)` -/
def rxEuropeRule (t : Text) : Bool :=
  searchLits
    [⟨str "Europe", true, false⟩, ⟨str "European Commission", false, false⟩,
     ⟨str "EU", false, true⟩] t

/-- `re.search(r"\bauction|tender|RfS|RFP|bid|awarded\b", ., re.I)` -/
def rxTender (t : Text) : Bool :=
  searchLits
    [⟨str "auction", true, false⟩, ⟨str "tender", false, false⟩,
     ⟨str "RfS", false, false⟩, ⟨str "RFP", false, false⟩,
     ⟨str "bid", false, false⟩, ⟨str "awarded", false, true⟩] t

/-- `re.search(r"\bpolicy|regulation|consultation|state-aid|EEG|grid code\b", ., re.I)` -/
def rxPolicyCat (t : Text) : Bool :=
  searchLits
    [⟨str "policy", true, false⟩, ⟨str "regulation", false, false⟩,
     ⟨str "consultation", false, false⟩, ⟨str "state-aid", false, false⟩,
     ⟨str "EEG", false, false⟩, ⟨str "grid code", false, true⟩] t

/-- `re.search(r"\bproject|NTP|COD|commission|construction\b", ., re.I)` -/
def rxProject (t : Text) : Bool :=
  searchLits
    [⟨str "project", true, false⟩, ⟨str "NTP", false, false⟩,
     ⟨str "COD", false, false⟩, ⟨str "commission", false, false⟩,
     ⟨str "construction", false, true⟩] t

/-- `re.search(r"\bprice|tariff|LCOE|module price|battery price\b", ., re.I)` -/
def rxPrice (t : Text) : Bool :=
  searchLits
    [⟨str "price", true, false⟩, ⟨str "tariff", false, false⟩,
     ⟨str "LCOE", false, false⟩, ⟨str "module price", false, false⟩,
     ⟨str "battery price", false, true⟩] t

/-- `re.search(r"\bancillary|capacity market|balancing|curtailment\b", ., re.I)` -/
def rxGrid (t : Text) : Bool :=
  searchLits
    [⟨str "ancillary", true, false⟩, ⟨str "capacity market", false, false⟩,
     ⟨str "balancing", false, false⟩, ⟨str "curtailment", false, true⟩] t

/-- `re.search(r"\bOEM|inverter|module|battery|technology\b", ., re.I)` -/
def rxTech (t : Text) : Bool :=
  searchLits
    [⟨str "OEM", true, false⟩, ⟨str "inverter", false, false⟩,
     ⟨str "module", false, false⟩, ⟨str "battery", false, false⟩,
     ⟨str "technology", false, true⟩] t

/-- The tail `\s*MW\b` shared by the two capacity patterns: optional
whitespace, then `MW` (case-insensitive), then a word boundary. -/
def mwTail (t : Text) : Bool :=
  match t.dropWhile isSpaceChar with
  | m :: w :: rest => ciEq 'M' m && ciEq 'W' w && atBoundary (some 'W') rest.head?
  | _ => false

/-- The sub-pattern `\s*1000\s*MW` (after an optional `>`), ending with the
group's trailing `\b`. -/
def thousandMWTail (t : Text) : Bool :=
  match t.dropWhile isSpaceChar with
  | '1' :: '0' :: '0' :: '0' :: rest => mwTail rest
  | _ => false

/-- Position matcher for `re.search(r"\b(GW|[3-9]\d{2}\s*MW)\b", ., re.I)`.
The `\b` anchors attach to the whole group. -/
def capacityHere (prev : Option Char) (t : Text) : Bool :=
  atBoundary prev t.head? &&
  ((match ciDropLit (str "GW") t with
    | some rest => atBoundary (some 'W') rest.head?
    | none => false) ||
   (match t with
    | d1 :: d2 :: d3 :: rest =>
      decide ('3' ≤ d1 ∧ d1 ≤ '9') && d2.isDigit && d3.isDigit && mwTail rest
    | _ => false))

/-- `re.search(r"\b(GW|[3-9]\d{2}\s*MW)\b", ., re.I)` — the 300–999 MW /
`GW` capacity signal. -/
def rxCapacity300 (t : Text) : Bool := reSearch capacityHere t

/-- Position matcher for `re.search(r"\b(>?\s*1000\s*MW|gigawatt)\b", ., re.I)`.
The `\b` anchors attach to the whole group; `>?` backtracks, so both the
`>`-consuming and the empty alternative are tried. -/
def tier5Here (prev : Option Char) (t : Text) : Bool :=
  atBoundary prev t.head? &&
  ((match ciDropLit (str "gigawatt") t with
    | some rest => atBoundary (some 't') rest.head?
    | none => false) ||
   (match t with
    | '>' :: rest => thousandMWTail rest
    | _ => false) ||
   thousandMWTail t)

/-- `re.search(r"\b(>?\s*1000\s*MW|gigawatt)\b", ., re.I)` — the explicit
gigawatt-scale signal. -/
def rxThousandMW (t : Text) : Bool := reSearch tier5Here t

/-- `re.search(r"\bpolicy|auction result|capacity market|state-aid\b", ., re.I)` —
the policy-language signal of the impact scorer. -/
def rxPolicyScore (t : Text) : Bool :=
  searchLits
    [⟨str "policy", true, false⟩, ⟨str "auction result", false, false⟩,
     ⟨str "capacity market", false, false⟩, ⟨str "state-aid", false, true⟩] t

/-- `re.search(r"\bhybrid|PV\+BESS|RTC\b", ., re.I)` — the `PV+BESS` tag trigger. -/
def rxHybrid (t : Text) : Bool :=
  searchLits
    [⟨str "hybrid", true, false⟩, ⟨str "PV+BESS", false, false⟩,
     ⟨str "RTC", false, true⟩] t

/-- `re.search(r"\bwind\b", ., re.I)` — the `wind` tag trigger. -/
def rxWind (t : Text) : Bool := searchLits [⟨str "wind", true, true⟩] t

/-- `re.search(r"\bPV|solar\b", ., re.I)` — the `PV` tag trigger. -/
def rxPV (t : Text) : Bool :=
  searchLits [⟨str "PV", true, false⟩, ⟨str "solar", false, true⟩] t

/-- `re.search(r"\bbattery|BESS|storage\b", ., re.I)` — the `storage` tag trigger. -/
def rxStorage (t : Text) : Bool :=
  searchLits
    [⟨str "battery", true, false⟩, ⟨str "BESS", false, false⟩,
     ⟨str "storage", false, true⟩] t

/-! ### `urlparse(...).netloc`

Model of CPython `urllib.parse.urlparse(url).netloc` as called inside
`infer_region_country` under `try/except` (an exception yields `host = ""`,
which we fold into the model's `[]` result).  Mirrors current CPython
`urlsplit`: leading C0-control/space characters are stripped, tab/CR/LF are
removed everywhere, an RFC-valid `scheme:` prefix is dropped, and a netloc
is present only when the remainder starts with `//`.  A netloc with
unbalanced square brackets raises `ValueError` (caught by the caller);
bracketed (IPv6) netlocs are likewise modelled as raising — CPython accepts
well-formed bracketed hosts, but such netlocs end in `]` or a port. -/

/-- A character allowed in a URL scheme after the first (letters, digits, `+-.`). -/
def schemeChar (c : Char) : Bool :=
  c.isAlpha || c.isDigit || decide (c = '+' ∨ c = '-' ∨ c = '.')

/-- Split a text at its first `:`, if any. -/
def splitOnColon : Text → Option (Text × Text)
  | [] => none
  | c :: cs =>
    if c = ':' then some ([], cs)
    else match splitOnColon cs with
      | some p => some (c :: p.1, p.2)
      | none => none

/-- Drop a leading `scheme:` when the part before the first `:` is a valid
scheme (nonempty, leading ASCII letter, then scheme characters). -/
def removeScheme (url : Text) : Text :=
  match splitOnColon url with
  | some p =>
    match p.1 with
    | [] => url
    | c :: rest => if c.isAlpha && rest.all schemeChar then p.2 else url
  | none => url

/-- `urlparse(url).netloc` under the caller's `try/except` (see section
comment for the modelled CPython behaviour). -/
def urlparseNetloc (url : Text) : Text :=
  let u1 := url.dropWhile (fun c => decide (c.toNat ≤ 32))
  let u2 := u1.filter (fun c => !decide (c = '\t' ∨ c = '\r' ∨ c = '\n'))
  let u3 := removeScheme u2
  match u3 with
  | '/' :: '/' :: rest =>
    let netloc := rest.takeWhile (fun c => !decide (c = '/' ∨ c = '?' ∨ c = '#'))
    if netloc.contains '[' || netloc.contains ']' then [] else netloc
  | _ => []

/-! ### Data model -/

/-- The first six components of a `time.struct_time` (as produced by
`feedparser` for `published_parsed` / `updated_parsed`). -/
structure StructTime where
  year : Nat
  month : Nat
  day : Nat
  hour : Nat
  minute : Nat
  second : Nat
deriving DecidableEq

/-- A raw feed entry: a bag of optional fields, none guaranteed present. -/
structure RawEntry where
  title : Option Text := none
  summary : Option Text := none
  subtitle : Option Text := none
  link : Option Text := none
  published_parsed : Option StructTime := none
  updated_parsed : Option StructTime := none
deriving DecidableEq

/-- The nested `location` object of a record (the source spells the first
field with mojibake, `state_or_l√§nder`). -/
structure Location where
  state_or_laender : Text
  city : Text
  grid_zone : Text
deriving DecidableEq

/-- The structured record built by `normalize`. -/
structure Record where
  date_utc : Text
  headline : Text
  summary_80w : Text
  region : Text
  country : Text
  category : Text
  subtopic : Text
  capacity_MW : Nat
  storage_MWh : Nat
  project_stage : Text
  tariff_or_price_local : Text
  tariff_or_price_usd : Text
  entities : List Text
  location : Location
  effective_date : Text
  impact_score_1to5 : Nat
  tags : List Text
  source_name : Text
  source_url : Text
  reliability : Text
  notes : Text
deriving DecidableEq

/-! ### The pipeline -/

/-- The `FEEDS` registry: `(name, url)` pairs. -/
def FEEDS : List (Text × Text) :=
  [(str "PV-Tech", str "https://www.pv-tech.org/feed/"),
   (str "Energy Storage News", str "https://www.energy-storage.news/feed/"),
   (str "IEA News", str "https://www.iea.org/rss/news.xml"),
   (str "IRENA", str "https://www.irena.org/rss"),
   (str "Bundesnetzagentur",
    str "https://www.bundesnetzagentur.de/SiteGlobals/Functions/RSSFeed/rss_nachrichten.xml?nn=268128"),
   (str "EU Energy", str "https://ec.europa.eu/newsroom/ener/rss.cfm?type=atom")]

/-- The ordered `REGION_MAP` rule list: `(pattern, (region, country))`. -/
def REGION_MAP : List ((Text → Bool) × (Text × Text)) :=
  [(rxGermanyRule, (str "Germany", str "DE")),
   (rxIndiaRule, (str "India", str "IN")),
   (rxEuropeRule, (str "Europe", str "EU"))]

/-- The ordered `CATEGORY_GUESS` rule list: `(pattern, category)`. -/
def CATEGORY_GUESS : List ((Text → Bool) × Text) :=
  [(rxTender, str "tender"), (rxPolicyCat, str "policy"),
   (rxProject, str "project"), (rxPrice, str "price"),
   (rxGrid, str "grid"), (rxTech, str "tech")]

/-- First-match dispatch over an ordered rule list (the `for`/`if` loops of
`infer_region_country` and `guess_category`). -/
def firstMatch {β : Type} : List ((Text → Bool) × β) → Text → Option β
  | [], _ => none
  | (rx, v) :: rest, t => if rx t then some v else firstMatch rest t

/-- `infer_region_country`: first matching region rule; otherwise the `.de`
domain fallback on the netloc of the whole argument text; otherwise
`("Global", "")`. -/
def infer_region_country (t : Text) : Text × Text :=
  match firstMatch REGION_MAP t with
  | some rc => rc
  | none =>
    if (str ".de").isSuffixOf (urlparseNetloc t) then (str "Germany", str "DE")
    else (str "Global", [])

/-- `guess_category`: first matching category rule, default `"market"`. -/
def guess_category (t : Text) : Text :=
  match firstMatch CATEGORY_GUESS t with
  | some c => c
  | none => str "market"

/-- `score_impact`: baseline 3; 4 on the 300–999 MW / `GW` pattern; 5 on the
explicit `1000 MW`/`gigawatt` pattern; then `max(score, 4)` on policy
language. -/
def score_impact (t : Text) : Nat :=
  let score := 3
  let score := if rxCapacity300 t then 4 else score
  let score := if rxThousandMW t then 5 else score
  let score := if rxPolicyScore t then max score 4 else score
  score

/-- Python `x or default` for an optional string: `None` and `""` are falsy. -/
def pyOrStr (a : Option Text) (b : Text) : Text :=
  match a with
  | none => b
  | some s => if s.isEmpty then b else s

/-- `str.strip()` (ASCII whitespace). -/
def pyStrip (t : Text) : Text :=
  ((t.dropWhile isSpaceChar).reverse.dropWhile isSpaceChar).reverse

/-- `re.sub(r"\s+", " ", .)`: collapse every whitespace run to one space.
The flag records whether the previous character was whitespace. -/
def collapseWSAux : Bool → Text → Text
  | _, [] => []
  | inRun, c :: cs =>
    if isSpaceChar c then
      if inRun then collapseWSAux true cs else ' ' :: collapseWSAux true cs
    else c :: collapseWSAux false cs

/-- `re.sub(r"\s+", " ", .)` from the start of the text. -/
def collapseWS (t : Text) : Text := collapseWSAux false t

/-- `(e.get("title") or "").strip()`. -/
def entryTitle (e : RawEntry) : Text := pyStrip (pyOrStr e.title [])

/-- `(e.get("summary") or e.get("subtitle") or "").strip()`. -/
def entrySummary (e : RawEntry) : Text :=
  pyStrip (pyOrStr e.summary (pyOrStr e.subtitle []))

/-- The combined classification text `f"{title} {summary}"`. -/
def entryText (e : RawEntry) : Text := entryTitle e ++ [' '] ++ entrySummary e

/-- The text handed to the Geography Classifier: `text + " " + link`. -/
def classificationTextWithLink (e : RawEntry) : Text :=
  entryText e ++ [' '] ++ e.link.getD []

/-- `dt = e.get("published_parsed") or e.get("updated_parsed")`
(a `struct_time` is always truthy). -/
def entryDT (e : RawEntry) : Option StructTime :=
  match e.published_parsed with
  | some st => some st
  | none => e.updated_parsed

/-- The digit character of `n % 10`. -/
def digitChar (n : Nat) : Char := Char.ofNat (48 + n % 10)

/-- Two-digit zero-padded decimal. -/
def pad2 (n : Nat) : Text := [digitChar (n / 10), digitChar n]

/-- Four-digit zero-padded decimal (`datetime` years are at most 9999). -/
def pad4 (n : Nat) : Text :=
  [digitChar (n / 1000), digitChar (n / 100), digitChar (n / 10), digitChar n]

/-- `datetime(*dt[:6], tzinfo=timezone.utc).strftime("%Y-%m-%d")`. -/
def formatDate (st : StructTime) : Text :=
  pad4 st.year ++ ['-'] ++ pad2 st.month ++ ['-'] ++ pad2 st.day

/-- The fixed set of official source names tested by `normalize`. -/
def officialSources : List Text :=
  [str "Bundesnetzagentur", str "IEA", str "IRENA", str "EU Energy"]

/-- `normalize(src_name, e)`.  The current UTC date used by the
no-timestamp fallback is passed explicitly as `nowDate` (the spec requires
the "now" fallback to be injectable). -/
def normalize (src_name : Text) (e : RawEntry) (nowDate : Text) : Record :=
  let title := entryTitle e
  let summary := entrySummary e
  let link := e.link.getD []
  let date_utc := match entryDT e with
    | some st => formatDate st
    | none => nowDate
  let text := entryText e
  let rc := infer_region_country (classificationTextWithLink e)
  let category := guess_category text
  let impact := score_impact text
  let tags0 := [str "utility-scale"]
  let tags1 := if rxHybrid text then tags0 ++ [str "PV+BESS"] else tags0
  let tags2 := if rxWind text then tags1 ++ [str "wind"] else tags1
  let tags3 := if rxPV text then tags2 ++ [str "PV"] else tags2
  let tags4 := if rxStorage text then tags3 ++ [str "storage"] else tags3
  { date_utc := date_utc
    headline := title
    summary_80w := (collapseWS summary).take 600
    region := rc.1
    country := if rc.2.isEmpty then (if rc.1 = str "Europe" then str "EU" else []) else rc.2
    category := category
    subtopic := []
    capacity_MW := 0
    storage_MWh := 0
    project_stage := str "NA"
    tariff_or_price_local := []
    tariff_or_price_usd := []
    entities := []
    location := ⟨[], [], []⟩
    effective_date := date_utc
    impact_score_1to5 := impact
    tags := tags4
    source_name := src_name
    source_url := link
    reliability := if src_name ∈ officialSources then str "official" else str "trade"
    notes := [] }

/-- `datetime`'s range check: `datetime(*dt[:6], ...)` raises `ValueError`
unless every component is in range. -/
def isLeapYear (y : Nat) : Bool := decide ((y % 4 = 0 ∧ y % 100 ≠ 0) ∨ y % 400 = 0)

/-- Days in a month, as `datetime` validates them. -/
def daysInMonth (y m : Nat) : Nat :=
  if m = 2 then (if isLeapYear y then 29 else 28)
  else if m = 4 ∨ m = 6 ∨ m = 9 ∨ m = 11 then 30
  else 31

/-- A six-component timestamp acceptable to `datetime(...)`. -/
def validStructTime (st : StructTime) : Bool :=
  decide (1 ≤ st.year ∧ st.year ≤ 9999 ∧ 1 ≤ st.month ∧ st.month ≤ 12 ∧
    1 ≤ st.day ∧ st.day ≤ daysInMonth st.year st.month ∧
    st.hour ≤ 23 ∧ st.minute ≤ 59 ∧ st.second ≤ 59)

/-- Every timestamp carried by the entry is a well-formed `struct_time`. -/
def entryTimesValid (e : RawEntry) : Bool :=
  (match e.published_parsed with | some st => validStructTime st | none => true) &&
  (match e.updated_parsed with | some st => validStructTime st | none => true)

/-- `normalize` with its single raising expression made explicit: the only
statement in `normalize` that can raise is `datetime(*dt[:6], ...)`, which
raises `ValueError` on an out-of-range component.  Everything else is
total. -/
def normalizeE (src_name : Text) (e : RawEntry) (nowDate : Text) : Except Text Record :=
  match entryDT e with
  | some st =>
    if validStructTime st then .ok (normalize src_name e nowDate)
    else .error (str "ValueError")
  | none => .ok (normalize src_name e nowDate)

/-- The dedup key `(it["headline"], it["source_url"])`. -/
def dkey (r : Record) : Text × Text := (r.headline, r.source_url)

/-- The dedup loop of `main`, with the `seen` set modelled as the list of
keys inserted so far (only membership is consulted). -/
def dedupAux (seen : List (Text × Text)) : List Record → List Record
  | [] => []
  | r :: rs =>
    if dkey r ∈ seen then dedupAux seen rs
    else r :: dedupAux (dkey r :: seen) rs

/-- The Deduplicator: `seen=set(); dedup=[]; for it in items: ...`. -/
def dedup (rs : List Record) : List Record := dedupAux [] rs

/-- The `seen` set after running the dedup loop over `rs`. -/
def seenAfter (seen : List (Text × Text)) : List Record → List (Text × Text)
  | [] => seen
  | r :: rs =>
    if dkey r ∈ seen then seenAfter seen rs
    else seenAfter (dkey r :: seen) rs

/-- Strict lexicographic order on texts by character code (Python `str`
comparison on ASCII text, which is what pandas compares when sorting the
`date_utc` column). -/
def textLt : Text → Text → Bool
  | _, [] => false
  | [], _ :: _ => true
  | a :: as, b :: bs => if a < b then true else if b < a then false else textLt as bs

/-- The Ranker's comparison: `a` may precede `b` iff `a`'s key
`(date_utc, impact_score_1to5)` is lexicographically ≥ `b`'s (both
components descending). -/
def rankLe (a b : Record) : Bool :=
  textLt b.date_utc a.date_utc ||
    (decide (a.date_utc = b.date_utc) && decide (b.impact_score_1to5 ≤ a.impact_score_1to5))

/-- The Ranker:
`df.sort_values(["date_utc","impact_score_1to5"], ascending=[False,False])`.
A multi-column pandas sort is a stable lexicographic sort, so it is
extensionally the stable `mergeSort` under `rankLe`. -/
def rank (rs : List Record) : List Record := rs.mergeSort rankLe

/-! ### Spec-side definition for the refinement part of C1 -/

/-- The maximal leading digit run of a text, and the rest. -/
def digitRun : Text → Text × Text
  | [] => ([], [])
  | c :: cs =>
    if c.isDigit then
      let p := digitRun cs
      (c :: p.1, p.2)
    else ([], c :: cs)

/-- The number denoted by a digit run. -/
def natOfDigits (ds : Text) : Nat := ds.foldl (fun n c => 10 * n + (c.toNat - 48)) 0

/-- Formalisation of the spec's phrase "text containing a ≥1000 MW
quantity" (for the refinement comparison in C1): at some position not
inside a larger number, a maximal digit run denoting a value ≥ 1000 is
followed by optional whitespace and a word-bounded `MW`. -/
def specContainsGe1000MW (t : Text) : Bool :=
  reSearch
    (fun prev s =>
      !(match prev with | some c => c.isDigit | none => false) &&
      (let p := digitRun s
       !p.1.isEmpty && decide (1000 ≤ natOfDigits p.1) && mwTail p.2)) t

/-! ### Helper lemmas -/

/-- `textLt` is transitive. -/
theorem textLt_trans : ∀ (a b c : Text), textLt a b = true → textLt b c = true →
    textLt a c = true := by
  intro a
  induction a with
  | nil =>
    intro b c h1 h2
    cases b with
    | nil => simp [textLt] at h1
    | cons y ys =>
      cases c with
      | nil => simp [textLt] at h2
      | cons z zs => simp [textLt]
  | cons x xs ih =>
    intro b c h1 h2
    cases b with
    | nil => simp [textLt] at h1
    | cons y ys =>
      cases c with
      | nil => simp [textLt] at h2
      | cons z zs =>
        simp only [textLt] at h1 h2 ⊢
        by_cases hxy : x < y
        · by_cases hyz : y < z
          · simp [lt_trans hxy hyz]
          · by_cases hzy : z < y
            · simp [hyz, hzy] at h2
            · have hy : y = z := le_antisymm (not_lt.mp hzy) (not_lt.mp hyz)
              subst hy
              simp [hxy]
        · by_cases hyx : y < x
          · simp [hxy, hyx] at h1
          · have hx : x = y := le_antisymm (not_lt.mp hyx) (not_lt.mp hxy)
            subst hx
            simp only [lt_irrefl, if_false] at h1
            by_cases hxz : x < z
            · simp [hxz]
            · by_cases hzx : z < x
              · simp [hxz, hzx] at h2
              · have hz : x = z := le_antisymm (not_lt.mp hzx) (not_lt.mp hxz)
                subst hz
                simp only [lt_irrefl, if_false] at h2 ⊢
                exact ih ys zs h1 h2

/-- `textLt` is trichotomous. -/
theorem textLt_trichotomy : ∀ (a b : Text),
    textLt a b = true ∨ a = b ∨ textLt b a = true := by
  intro a
  induction a with
  | nil =>
    intro b
    cases b with
    | nil => exact Or.inr (Or.inl rfl)
    | cons y ys => exact Or.inl (by simp [textLt])
  | cons x xs ih =>
    intro b
    cases b with
    | nil => exact Or.inr (Or.inr (by simp [textLt]))
    | cons y ys =>
      rcases lt_trichotomy x y with h | h | h
      · exact Or.inl (by simp [textLt, h])
      · subst h
        rcases ih ys with h2 | h2 | h2
        · exact Or.inl (by simp [textLt, h2])
        · exact Or.inr (Or.inl (by rw [h2]))
        · exact Or.inr (Or.inr (by simp [textLt, h2]))
      · exact Or.inr (Or.inr (by simp [textLt, h]))

/-- The Ranker's comparison is total. -/
theorem rankLe_total : ∀ (a b : Record), (rankLe a b || rankLe b a) = true := by
  intro a b
  rcases textLt_trichotomy a.date_utc b.date_utc with h | h | h
  · simp [rankLe, h]
  · rcases Nat.le_total a.impact_score_1to5 b.impact_score_1to5 with hs | hs
    · simp [rankLe, h, hs]
    · simp [rankLe, h, hs]
  · simp [rankLe, h]

/-- The Ranker's comparison is transitive. -/
theorem rankLe_trans : ∀ (a b c : Record), rankLe a b = true → rankLe b c = true →
    rankLe a c = true := by
  intro a b c h1 h2
  simp only [rankLe, Bool.or_eq_true, Bool.and_eq_true, decide_eq_true_eq] at h1 h2 ⊢
  rcases h1 with h1 | ⟨h1e, h1s⟩
  · rcases h2 with h2 | ⟨h2e, h2s⟩
    · exact Or.inl (textLt_trans _ _ _ h2 h1)
    · exact Or.inl (h2e ▸ h1)
  · rcases h2 with h2 | ⟨h2e, h2s⟩
    · exact Or.inl (by rw [h1e]; exact h2)
    · exact Or.inr ⟨h1e.trans h2e, le_trans h2s h1s⟩

/-- A list all of whose element pairs are related is pairwise related. -/
theorem pairwise_of_all {α : Type} {R : α → α → Prop} :
    ∀ {l : List α}, (∀ x ∈ l, ∀ y ∈ l, R x y) → l.Pairwise R := by
  intro l
  induction l with
  | nil => intro _; exact List.Pairwise.nil
  | cons a l ih =>
    intro h
    exact List.Pairwise.cons
      (fun b hb => h a (by simp) b (by simp [hb]))
      (ih fun x hx y hy => h x (by simp [hx]) y (by simp [hy]))

/-- The dedup loop distributes over append, threading the `seen` set. -/
theorem dedupAux_append (seen : List (Text × Text)) (l1 l2 : List Record) :
    dedupAux seen (l1 ++ l2) = dedupAux seen l1 ++ dedupAux (seenAfter seen l1) l2 := by
  induction l1 generalizing seen with
  | nil => simp [dedupAux, seenAfter]
  | cons r rs ih =>
    by_cases h : dkey r ∈ seen
    · simp [dedupAux, seenAfter, h, ih]
    · simp [dedupAux, seenAfter, h, ih]

/-- Membership in the `seen` set after the dedup loop. -/
theorem mem_seenAfter (k : Text × Text) :
    ∀ (rs : List Record) (seen : List (Text × Text)),
      k ∈ seenAfter seen rs ↔ k ∈ seen ∨ ∃ r ∈ rs, dkey r = k := by
  intro rs
  induction rs with
  | nil => intro seen; simp [seenAfter]
  | cons r rs ih =>
    intro seen
    by_cases h : dkey r ∈ seen
    · rw [seenAfter, if_pos h, ih]
      constructor
      · rintro (hs | ⟨x, hx, hk⟩)
        · exact Or.inl hs
        · exact Or.inr ⟨x, List.mem_cons_of_mem r hx, hk⟩
      · rintro (hs | ⟨x, hx, hk⟩)
        · exact Or.inl hs
        · rcases List.mem_cons.mp hx with rfl | hx2
          · exact Or.inl (hk ▸ h)
          · exact Or.inr ⟨x, hx2, hk⟩
    · rw [seenAfter, if_neg h, ih]
      constructor
      · rintro (hs | ⟨x, hx, hk⟩)
        · rcases List.mem_cons.mp hs with rfl | hs2
          · exact Or.inr ⟨r, List.mem_cons_self r rs, rfl⟩
          · exact Or.inl hs2
        · exact Or.inr ⟨x, List.mem_cons_of_mem r hx, hk⟩
      · rintro (hs | ⟨x, hx, hk⟩)
        · exact Or.inl (List.mem_cons_of_mem _ hs)
        · rcases List.mem_cons.mp hx with rfl | hx2
          · exact Or.inl (hk ▸ List.mem_cons_self _ seen)
          · exact Or.inr ⟨x, hx2, hk⟩

/-- The dedup loop drops everything whose key was already seen. -/
theorem dedupAux_eq_nil (seen : List (Text × Text)) :
    ∀ (rs : List Record), (∀ r ∈ rs, dkey r ∈ seen) → dedupAux seen rs = [] := by
  intro rs
  induction rs with
  | nil => intro _; rfl
  | cons r rs ih =>
    intro h
    rw [dedupAux, if_pos (h r (List.mem_cons_self r rs))]
    exact ih fun x hx => h x (List.mem_cons_of_mem r hx)

/-- The dedup loop's output is a sublist of its input. -/
theorem dedupAux_sublist : ∀ (rs : List Record) (seen : List (Text × Text)),
    List.Sublist (dedupAux seen rs) rs := by
  intro rs
  induction rs with
  | nil => intro seen; exact List.Sublist.refl []
  | cons r rs ih =>
    intro seen
    rw [dedupAux]
    by_cases h : dkey r ∈ seen
    · rw [if_pos h]; exact (ih seen).cons r
    · rw [if_neg h]; exact (ih (dkey r :: seen)).cons₂ r

/-- Per-key characterisation of the dedup loop: the records of key `k` in
the output are exactly the first input record of key `k` (none when `k` is
already in `seen`). -/
theorem dedupAux_filter (k : Text × Text) :
    ∀ (rs : List Record) (seen : List (Text × Text)),
      (dedupAux seen rs).filter (fun r => decide (dkey r = k)) =
        if k ∈ seen then [] else (rs.find? (fun r => decide (dkey r = k))).toList := by
  intro rs
  induction rs with
  | nil =>
    intro seen
    by_cases h : k ∈ seen <;> simp [dedupAux, h]
  | cons r rs ih =>
    intro seen
    rw [dedupAux]
    by_cases hm : dkey r ∈ seen
    · rw [if_pos hm, ih]
      by_cases hk : k ∈ seen
      · simp [hk]
      · have hne : ¬dkey r = k := fun he => hk (he ▸ hm)
        simp [hk, List.find?, hne]
    · rw [if_neg hm]
      by_cases hrk : dkey r = k
      · have hk : ¬k ∈ seen := fun hkk => hm (hrk ▸ hkk)
        have hk2 : k ∈ dkey r :: seen := hrk ▸ List.mem_cons_self _ seen
        simp [List.filter, hrk, ih, hk2, hk, List.find?]
      · by_cases hk : k ∈ seen
        · have hk2 : k ∈ dkey r :: seen := List.mem_cons_of_mem _ hk
          simp [List.filter, hrk, ih, hk2, hk, List.find?]
        · have hk2 : ¬k ∈ dkey r :: seen := by
            intro hc
            rcases List.mem_cons.mp hc with rfl | hc2
            · exact hrk rfl
            · exact hk hc2
          simp [List.filter, hrk, ih, hk2, hk, List.find?]

/-- First-match dispatch returns the rule at the least matching index. -/
theorem firstMatch_eq_get {β : Type} :
    ∀ (rules : List ((Text → Bool) × β)) (t : Text) (i : Nat) (h : i < rules.length),
      (rules.get ⟨i, h⟩).1 t = true →
      (∀ j (hj : j < i), (rules.get ⟨j, Nat.lt_trans hj h⟩).1 t = false) →
      firstMatch rules t = some (rules.get ⟨i, h⟩).2 := by
  intro rules
  induction rules with
  | nil => intro t i h; exact absurd h (Nat.not_lt_zero i)
  | cons p rest ih =>
    intro t i h hi hprev
    obtain ⟨rx, v⟩ := p
    cases i with
    | zero => simp only [List.get] at hi ⊢; simp [firstMatch, hi]
    | succ n =>
      have h0 : rx t = false := hprev 0 (Nat.succ_pos n)
      rw [firstMatch, if_neg (by simp [h0])]
      have hn : n < rest.length := Nat.lt_of_succ_lt_succ h
      exact ih t n hn hi (fun j hj => hprev (j + 1) (Nat.succ_lt_succ hj))

/-! ### The claims -/

/-- C1 (amended): `score_impact` returns 5 whenever the explicit
`1000 MW`/`gigawatt` pattern matches (whatever else matches); 4 when only
the 300–999 MW / `GW` capacity pattern matches (no gigawatt-scale pattern,
no policy language); and 3 when no capacity pattern and no policy language
matches.  (The claim as frozen — score 5 for every text containing a
≥1000 MW quantity together with policy language — fails: see the
counterexample with `"1500 MW policy"`.) -/
theorem claim_C1 (t : Text) :
    (rxThousandMW t = true → score_impact t = 5) ∧
    (rxThousandMW t = false → rxCapacity300 t = true → rxPolicyScore t = false →
      score_impact t = 4) ∧
    (rxThousandMW t = false → rxCapacity300 t = false → rxPolicyScore t = false →
      score_impact t = 3) := by
  refine ⟨?_, ?_, ?_⟩
  · intro h5
    cases hp : rxPolicyScore t <;> cases hc : rxCapacity300 t <;> simp [score_impact, h5, hp, hc]
  · intro h5 hc hp
    simp [score_impact, h5, hc, hp]
  · intro h5 hc hp
    simp [score_impact, h5, hc, hp]

/-- C1 witness: a text matching the explicit gigawatt pattern scores 5. -/
theorem claim_C1_witness :
    rxThousandMW (str "gigawatt auction") = true ∧
      score_impact (str "gigawatt auction") = 5 :=
  ⟨by decide, (claim_C1 (str "gigawatt auction")).1 (by decide)⟩

/-- C1 counterexample: `"1500 MW policy"` contains a ≥1000 MW quantity (in
the spec's sense) together with policy language, yet `score_impact` returns
4, not 5 — the tier-5 regex only recognises the literal `1000 MW` or
`gigawatt`. -/
theorem claim_C1_counterexample :
    specContainsGe1000MW (str "1500 MW policy") = true ∧
    rxPolicyScore (str "1500 MW policy") = true ∧
    score_impact (str "1500 MW policy") ≠ 5 :=
  ⟨by decide, by decide, by decide⟩

/-- C2 (amended): when the combined classification text (text plus appended
link) matches no geography rule, the classifier returns `("Germany", "DE")`
exactly when the netloc that `urlparse` extracts from that whole combined
string ends in `.de`, and `("Global", "")` otherwise.  Because the combined
string starts with the entry text, the netloc is nonempty only when the
text before the link is whitespace-only (URL parsing strips leading
whitespace), e.g. when title and summary are both empty; a link's own `.de`
domain does not trigger the fallback otherwise (see the counterexample). -/
theorem claim_C2 (src : Text) (e : RawEntry) (now : Text)
    (h : firstMatch REGION_MAP (classificationTextWithLink e) = none) :
    ((normalize src e now).region, (normalize src e now).country) =
      (if (str ".de").isSuffixOf (urlparseNetloc (classificationTextWithLink e)) then
        (str "Germany", str "DE")
      else (str "Global", [])) := by
  have hinf : infer_region_country (classificationTextWithLink e) =
      (if (str ".de").isSuffixOf (urlparseNetloc (classificationTextWithLink e)) then
        (str "Germany", str "DE")
      else (str "Global", [])) := by
    rw [infer_region_country, h]
  have hreg : (normalize src e now).region =
      (infer_region_country (classificationTextWithLink e)).1 := rfl
  have hcty : (normalize src e now).country =
      (if (infer_region_country (classificationTextWithLink e)).2.isEmpty then
        (if (infer_region_country (classificationTextWithLink e)).1 = str "Europe" then
          str "EU" else [])
      else (infer_region_country (classificationTextWithLink e)).2) := rfl
  rw [hinf] at hreg hcty
  rw [hreg, hcty]
  cases hde : (str ".de").isSuffixOf (urlparseNetloc (classificationTextWithLink e)) <;> decide

/-- C2 witness: with an empty title and summary the combined text is two
spaces followed by the link, URL parsing strips the leading whitespace, the
`.de` netloc is found, and the fallback yields `("Germany", "DE")`. -/
theorem claim_C2_witness :
    ((normalize (str "PV-Tech") { link := some (str "https://example.de/x") }
        (str "2024-01-01")).region,
     (normalize (str "PV-Tech") { link := some (str "https://example.de/x") }
        (str "2024-01-01")).country) = (str "Germany", str "DE") := by
  have h := claim_C2 (str "PV-Tech") { link := some (str "https://example.de/x") }
    (str "2024-01-01") (by decide)
  rw [h]
  decide

/-- C2 counterexample: an entry with title `"hello"` and a `.de` link
matches no geography rule and its link's own netloc ends in `.de`, yet the
classifier returns `("Global", "")`: the link is appended to nonempty text,
so `urlparse` finds no netloc in the combined string. -/
theorem claim_C2_counterexample :
    firstMatch REGION_MAP (classificationTextWithLink
      { title := some (str "hello"), link := some (str "https://example.de/x") }) = none ∧
    (str ".de").isSuffixOf (urlparseNetloc (str "https://example.de/x")) = true ∧
    ((normalize (str "PV-Tech")
        { title := some (str "hello"), link := some (str "https://example.de/x") }
        (str "2024-01-01")).region,
     (normalize (str "PV-Tech")
        { title := some (str "hello"), link := some (str "https://example.de/x") }
        (str "2024-01-01")).country) = (str "Global", []) :=
  ⟨by decide, by decide, by decide⟩

/-- C3: the Ranker returns a permutation of its input (same multiset),
sorted by `date_utc` descending with `impact_score_1to5` descending as the
tie-break, and the sort is stable: for every key, the records carrying that
key appear in the output in their original input order. -/
theorem claim_C3 (rs : List Record) :
    List.Perm (rank rs) rs ∧
    (rank rs).Pairwise (fun a b =>
      textLt b.date_utc a.date_utc = true ∨
        (a.date_utc = b.date_utc ∧ b.impact_score_1to5 ≤ a.impact_score_1to5)) ∧
    (∀ d s,
      (rank rs).filter (fun r => decide (r.date_utc = d ∧ r.impact_score_1to5 = s)) =
        rs.filter (fun r => decide (r.date_utc = d ∧ r.impact_score_1to5 = s))) := by
  refine ⟨List.mergeSort_perm rs rankLe, ?_, ?_⟩
  · have h := List.sorted_mergeSort rankLe_trans rankLe_total rs
    exact h.imp (fun hab => by
      simpa [rankLe, Bool.or_eq_true, Bool.and_eq_true, decide_eq_true_eq] using hab)
  · intro d s
    have hpair : (rs.filter
        (fun r => decide (r.date_utc = d ∧ r.impact_score_1to5 = s))).Pairwise
        (fun a b => rankLe a b = true) :=
      pairwise_of_all (fun x hx y hy => by
        have hx2 := (List.mem_filter.mp hx).2
        have hy2 := (List.mem_filter.mp hy).2
        simp only [decide_eq_true_eq] at hx2 hy2
        simp [rankLe, hx2.1, hy2.1, hx2.2, hy2.2])
    have hsub := List.sublist_mergeSort rankLe_trans rankLe_total hpair
      (List.filter_sublist rs)
    have hsub2 := hsub.filter
      (fun r => decide (r.date_utc = d ∧ r.impact_score_1to5 = s))
    rw [List.filter_filter] at hsub2
    simp only [Bool.and_self] at hsub2
    have hperm := (List.mergeSort_perm rs rankLe).filter
      (fun r => decide (r.date_utc = d ∧ r.impact_score_1to5 = s))
    exact (hsub2.eq_of_length hperm.length_eq.symm).symm

/-- C4: the Deduplicator is idempotent on concatenation, its output is a
sublist of its input (order preserved, later records only dropped), and for
every key the output records with that key are exactly the first input
record with that key. -/
theorem claim_C4 (rs : List Record) :
    dedup (rs ++ rs) = dedup rs ∧
    List.Sublist (dedup rs) rs ∧
    (∀ k, (dedup rs).filter (fun r => decide (dkey r = k)) =
      (rs.find? (fun r => decide (dkey r = k))).toList) := by
  refine ⟨?_, dedupAux_sublist rs [], ?_⟩
  · rw [dedup, dedup, dedupAux_append]
    have h : ∀ r ∈ rs, dkey r ∈ seenAfter [] rs := by
      intro r hr
      rw [mem_seenAfter]
      exact Or.inr ⟨r, hr, rfl⟩
    rw [dedupAux_eq_nil _ _ h, List.append_nil]
  · intro k
    rw [dedup, dedupAux_filter]
    simp

/-- C5: normalizing the all-absent entry from a non-official source yields
empty headline, region `"Global"` with empty country, category `"market"`,
impact score 3, exactly the baseline tag, and reliability `"trade"`. -/
theorem claim_C5 (src now : Text) (h : ¬src ∈ officialSources) :
    (normalize src {} now).headline = [] ∧
    (normalize src {} now).region = str "Global" ∧
    (normalize src {} now).country = [] ∧
    (normalize src {} now).category = str "market" ∧
    (normalize src {} now).impact_score_1to5 = 3 ∧
    (normalize src {} now).tags = [str "utility-scale"] ∧
    (normalize src {} now).reliability = str "trade" := by
  refine ⟨rfl, rfl, rfl, rfl, rfl, rfl, ?_⟩
  show (if src ∈ officialSources then str "official" else str "trade") = str "trade"
  rw [if_neg h]

/-- C5 witness: the registry source `"PV-Tech"` is not official. -/
theorem claim_C5_witness :
    ¬(str "PV-Tech") ∈ officialSources ∧
    ((normalize (str "PV-Tech") {} (str "2024-01-01")).headline = [] ∧
     (normalize (str "PV-Tech") {} (str "2024-01-01")).region = str "Global" ∧
     (normalize (str "PV-Tech") {} (str "2024-01-01")).country = [] ∧
     (normalize (str "PV-Tech") {} (str "2024-01-01")).category = str "market" ∧
     (normalize (str "PV-Tech") {} (str "2024-01-01")).impact_score_1to5 = 3 ∧
     (normalize (str "PV-Tech") {} (str "2024-01-01")).tags = [str "utility-scale"] ∧
     (normalize (str "PV-Tech") {} (str "2024-01-01")).reliability = str "trade") :=
  ⟨by decide, claim_C5 (str "PV-Tech") (str "2024-01-01") (by decide)⟩

/-- C6: `normalize` is total — for every source name and every entry (any
subset of the optional fields absent, timestamps being well-formed
`struct_time` values), it produces exactly one record and the error path
(`datetime`'s `ValueError`, the only raising expression) is not taken. -/
theorem claim_C6 (src : Text) (e : RawEntry) (now : Text)
    (h : entryTimesValid e = true) :
    normalizeE src e now = .ok (normalize src e now) := by
  rw [normalizeE]
  cases hdt : entryDT e with
  | none => rfl
  | some st =>
    rw [entryTimesValid, Bool.and_eq_true] at h
    rw [entryDT] at hdt
    have hv : validStructTime st = true := by
      cases hp : e.published_parsed with
      | some st2 =>
        rw [hp] at hdt
        have hdt2 : some st2 = some st := hdt
        have hst : st2 = st := by injection hdt2
        subst hst
        have h1 := h.1
        rw [hp] at h1
        exact h1
      | none =>
        rw [hp] at hdt
        have hdt2 : e.updated_parsed = some st := hdt
        have h2 := h.2
        rw [hdt2] at h2
        exact h2
    show (if validStructTime st then Except.ok (normalize src e now)
      else Except.error (str "ValueError")) = Except.ok (normalize src e now)
    rw [if_pos hv]

/-- C6 witness: an entry with a valid published timestamp normalizes
without hitting the error branch. -/
theorem claim_C6_witness :
    entryTimesValid { published_parsed := some ⟨2024, 5, 17, 10, 30, 0⟩ } = true ∧
    normalizeE (str "IRENA") { published_parsed := some ⟨2024, 5, 17, 10, 30, 0⟩ }
        (str "2024-01-01") =
      .ok (normalize (str "IRENA") { published_parsed := some ⟨2024, 5, 17, 10, 30, 0⟩ }
        (str "2024-01-01")) :=
  ⟨by decide, claim_C6 (str "IRENA") { published_parsed := some ⟨2024, 5, 17, 10, 30, 0⟩ }
    (str "2024-01-01") (by decide)⟩

/-- C7: the end-to-end example — title `"Germany awards 500 MW solar auction"`,
summary `"Bundesnetzagentur confirms results"`, source `"Bundesnetzagentur"` —
yields region `"Germany"`, country `"DE"`, category `"tender"`, impact
score 4, reliability `"official"`, and tags containing the baseline tag and
`"PV"`. -/
theorem claim_C7 :
    (normalize (str "Bundesnetzagentur")
      { title := some (str "Germany awards 500 MW solar auction"),
        summary := some (str "Bundesnetzagentur confirms results") }
      (str "2024-01-01")).region = str "Germany" ∧
    (normalize (str "Bundesnetzagentur")
      { title := some (str "Germany awards 500 MW solar auction"),
        summary := some (str "Bundesnetzagentur confirms results") }
      (str "2024-01-01")).country = str "DE" ∧
    (normalize (str "Bundesnetzagentur")
      { title := some (str "Germany awards 500 MW solar auction"),
        summary := some (str "Bundesnetzagentur confirms results") }
      (str "2024-01-01")).category = str "tender" ∧
    (normalize (str "Bundesnetzagentur")
      { title := some (str "Germany awards 500 MW solar auction"),
        summary := some (str "Bundesnetzagentur confirms results") }
      (str "2024-01-01")).impact_score_1to5 = 4 ∧
    (normalize (str "Bundesnetzagentur")
      { title := some (str "Germany awards 500 MW solar auction"),
        summary := some (str "Bundesnetzagentur confirms results") }
      (str "2024-01-01")).reliability = str "official" ∧
    (str "utility-scale") ∈ (normalize (str "Bundesnetzagentur")
      { title := some (str "Germany awards 500 MW solar auction"),
        summary := some (str "Bundesnetzagentur confirms results") }
      (str "2024-01-01")).tags ∧
    (str "PV") ∈ (normalize (str "Bundesnetzagentur")
      { title := some (str "Germany awards 500 MW solar auction"),
        summary := some (str "Bundesnetzagentur confirms results") }
      (str "2024-01-01")).tags := by
  decide

/-- C8: the Geography Classifier's rules are evaluated in list order with
the first match winning: if rule `i` matches and every earlier rule fails,
the result is rule `i`'s `(region, country)` pair — so for text matching
two or more rules, the earliest-listed matching rule's pair is returned. -/
theorem claim_C8 (t : Text) (i : Nat) (h : i < REGION_MAP.length)
    (hi : (REGION_MAP.get ⟨i, h⟩).1 t = true)
    (hprev : ∀ j (hj : j < i), (REGION_MAP.get ⟨j, Nat.lt_trans hj h⟩).1 t = false) :
    infer_region_country t = (REGION_MAP.get ⟨i, h⟩).2 := by
  rw [infer_region_country, firstMatch_eq_get REGION_MAP t i h hi hprev]

/-- C8 witness: `"India Europe"` matches both the India rule (index 1) and
the Europe rule (index 2) but not the Germany rule, and the classifier
returns the earlier rule's pair `("India", "IN")`. -/
theorem claim_C8_witness :
    (REGION_MAP.get ⟨1, by decide⟩).1 (str "India Europe") = true ∧
    (REGION_MAP.get ⟨2, by decide⟩).1 (str "India Europe") = true ∧
    infer_region_country (str "India Europe") = (str "India", str "IN") := by
  refine ⟨by decide, by decide, ?_⟩
  have h := claim_C8 (str "India Europe") 1 (by decide) (by decide) ?_
  · exact h.trans (by decide)
  · intro j hj
    have hj0 : j = 0 := Nat.lt_one_iff.mp hj
    subst hj0
    exact of_decide_eq_true rfl

/-- C9: `score_impact` always returns 3, 4 or 5 — despite the declared
range `[1,5]`, no input can score below 3. -/
theorem claim_C9 (t : Text) :
    score_impact t = 3 ∨ score_impact t = 4 ∨ score_impact t = 5 := by
  simp only [score_impact]
  cases rxCapacity300 t <;> cases rxThousandMW t <;> cases rxPolicyScore t <;> simp

/-- C10: a record's reliability is `"official"` iff its source name is
exactly one of the four official names; in particular every record from the
registry source `"IEA News"` (which is in `FEEDS`) is `"trade"`, since
membership is exact string equality and `"IEA News"` is not in the set. -/
theorem claim_C10 :
    (∀ (src : Text) (e : RawEntry) (now : Text),
      (normalize src e now).reliability = str "official" ↔
        (src = str "Bundesnetzagentur" ∨ src = str "IEA" ∨ src = str "IRENA" ∨
          src = str "EU Energy")) ∧
    (∀ (e : RawEntry) (now : Text),
      (normalize (str "IEA News") e now).reliability = str "trade") ∧
    (str "IEA News") ∈ FEEDS.map Prod.fst := by
  refine ⟨?_, ?_, by decide⟩
  · intro src e now
    show (if src ∈ officialSources then str "official" else str "trade") = str "official" ↔ _
    by_cases h : src ∈ officialSources
    · rw [if_pos h]
      simp only [officialSources, List.mem_cons, List.not_mem_nil, or_false] at h
      exact iff_of_true rfl h
    · rw [if_neg h]
      constructor
      · intro hbad
        exact absurd hbad (by decide)
      · intro hsrc
        exact absurd (by
          simp only [officialSources, List.mem_cons, List.not_mem_nil, or_false]
          exact hsrc) h
  · intro e now
    show (if (str "IEA News") ∈ officialSources then str "official" else str "trade") =
      str "trade"
    rw [if_neg (by decide)]

end Fetch
